import Mathlib

/-!
Slice bus: framing, checksum, cport remapping, outbound queues.

A shallow embedding of `apps/slice/cmd/bus.c`.

* Bytes (`uint8_t`) are natural numbers; every arithmetic step that can leave
  the byte range is followed by an explicit `% 256`.
* The global `bus_data`, the arguments handed to the platform call
  `slice_host_int_set`, the calls made to the router `greybus_rx_handler` and
  the messages released by `bus_cleanup_list` are gathered in one `World`
  value that every operation takes and returns.
* An access outside an array is undefined behaviour in C; the operations that
  index arrays return `Option`, and `none` stands for such an access.
* `malloc` is a parameter of the sending operations: it either fails or hands
  out a block whose bytes are indeterminate (`garbage`).
-/

namespace SliceBus

/-! ## Declarations taken from headers that are not part of the source tree -/

/-- The value of `ENOMEM` in `<errno.h>`. -/
abbrev ENOMEM : Int := 12

/-- Modelled from the spec: offset of `checksum` in `struct slice_unipro_msg_rx`
(declared in `bus.h`, which is not in the source tree). The spec gives the
inbound frame as `checksum:1B | host_cport:1B | local_cport:1B | payload`. -/
abbrev RX_CHECKSUM : Nat := 0

/-- Modelled from the spec: offset of `hd_cport` in `struct slice_unipro_msg_rx`. -/
abbrev RX_HD_CPORT : Nat := 1

/-- Modelled from the spec: offset of `bundle_cport` in `struct slice_unipro_msg_rx`. -/
abbrev RX_BUNDLE_CPORT : Nat := 2

/-- Modelled from the spec: offset of the flexible member `data` in
`struct slice_unipro_msg_rx`; the source subtracts the same header size in
`len - 3`. -/
abbrev RX_DATA : Nat := 3

/-- Modelled from the spec: offset of `checksum` in `struct slice_unipro_msg_tx`
(declared in `bus.h`, which is not in the source tree). The spec gives the
outbound frame the same layout as the inbound one. -/
abbrev TX_CHECKSUM : Nat := 0

/-- Modelled from the spec: offset of `hd_cport` in `struct slice_unipro_msg_tx`. -/
abbrev TX_HD_CPORT : Nat := 1

/-- Modelled from the spec: offset of the local cport byte in the outbound
header. `bus.c` never refers to this field. -/
abbrev TX_BUNDLE_CPORT : Nat := 2

/-- Modelled from the spec: `sizeof(struct slice_unipro_msg_tx)`, which is also
the offset of its flexible member `data` (the spec allocates `3 + length`). -/
abbrev SIZEOF_MSG_TX : Nat := 3

/-- Constants of `bus.h` and of the platform, taken as parameters. -/
structure slice_config where
  /-- Number of entries of `to_base_cport`. -/
  SLICE_NUM_CPORTS : Nat
  /-- Interrupt reason bit of the control-plane (SVC) queue. -/
  SLICE_REG_INT_SVC : Nat
  /-- Interrupt reason bit of the data-plane (Unipro) queue. -/
  SLICE_REG_INT_UNIPRO : Nat
  /-- Width of `size_t` in bits. -/
  SIZE_BITS : Nat
deriving DecidableEq

/-! ## Data model -/

/-- The C `struct slice_tx_msg`: one queued outbound message (the list node itself
is represented by the position in the queue). -/
structure slice_tx_msg where
  buf : List Nat
  size : Nat
deriving DecidableEq

/-- The C `struct slice_bus_data`, restricted to the fields `bus.c` uses. The
receive buffer `reg_unipro_rx` is the whole register array, which the transport
fills before it calls the decoder. -/
structure slice_bus_data where
  reg_int : Nat
  reg_unipro_rx : List Nat
  to_base_cport : List Nat
  reg_unipro_tx_fifo : List slice_tx_msg
  reg_svc_tx_fifo : List slice_tx_msg
deriving DecidableEq

/-- One call `greybus_rx_handler(cport, data, len)`: `data` is what the pointer
`umsg->data` sees (the receive buffer from offset 3 on), `len` the length
argument. -/
structure rx_call where
  cport : Nat
  data : List Nat
  len : Nat
deriving DecidableEq

/-- The bus state together with the observable calls into the collaborators.
The three logs have their most recent entry first. -/
structure World where
  bus_data : slice_bus_data
  /-- Arguments of the calls of `slice_host_int_set`. -/
  host_int : List Bool
  /-- Calls of `greybus_rx_handler`. -/
  rx_handled : List rx_call
  /-- Messages whose buffer and node were freed by `bus_cleanup_list`. -/
  freed : List slice_tx_msg
deriving DecidableEq

/-- Level of the physical interrupt line: the argument of the last call of
`slice_host_int_set`, if there was one. -/
def World.line (w : World) : Option Bool := w.host_int.head?

/-! ## Helpers for C arithmetic and memory -/

/-- Bit pattern of `~x` for a `uint8_t` operand `x` promoted to a 32-bit `int`. -/
def int_not (x : Nat) : Nat := (2 ^ 32 - 1) ^^^ x

/-- Unsigned subtraction `a - b` in `size_t` arithmetic of width `bits`. -/
def size_t_sub (bits a b : Nat) : Nat := (((a : Int) - (b : Int)) % (2 : Int) ^ bits).toNat

/-- Unsigned addition `a + b` in `size_t` arithmetic of width `bits`. -/
def size_t_add (bits a b : Nat) : Nat := (a + b) % 2 ^ bits

/-- A block of `n` bytes as handed out by a successful `malloc(n)`: its
contents are indeterminate, `garbage i` is the byte found at offset `i`. -/
def malloc_block (n : Nat) (garbage : Nat → Nat) : List Nat :=
  (List.range n).map (fun i => garbage i % 256)

/-- Effect of `memcpy(dst + off, src, n)` on the bytes of `dst`; `none` when
the copy would read past `src` or write past `dst`. -/
def memcpy_at (dst : List Nat) (off : Nat) (src : List Nat) (n : Nat) : Option (List Nat) :=
  if n ≤ src.length ∧ off + n ≤ dst.length then
    some (dst.take off ++ src.take n ++ dst.drop (off + n))
  else none

/-- The loop `for (i = i0; i < len; i++) acc += data[i];` with a `uint8_t`
accumulator: the first argument counts the iterations still to run. -/
def add_bytes (data : List Nat) : Nat → Nat → Nat → Option Nat
  | 0, _, acc => some acc
  | n + 1, i, acc =>
    match data[i]? with
    | none => none
    | some b => add_bytes data n (i + 1) ((acc + b) % 256)

/-! ## The operations of `bus.c` -/

/-- The function `bus_interrupt(slf, int_mask, assert)`: sets or clears the bits
of `int_mask` in `reg_int` and drives the line with `reg_int > 0`. -/
def bus_interrupt (w : World) (int_mask : Nat) (assert : Bool) : World :=
  let reg_int :=
    if assert then (w.bus_data.reg_int ||| int_mask) % 256
    else (w.bus_data.reg_int &&& int_not int_mask) % 256
  { w with
    bus_data := { w.bus_data with reg_int := reg_int }
    host_int := decide (reg_int > 0) :: w.host_int }

/-- The function `calc_checksum(data, len)`: the byte sum, then `~chksum + 1` evaluated in
`int` and truncated to `uint8_t` on return. -/
def calc_checksum (data : List Nat) (len : Nat) : Option Nat :=
  match add_bytes data len 0 0 with
  | none => none
  | some chksum => some ((~~~(chksum : Int) + 1) % 256).toNat

/-- The function `bus_greybus_from_base(slf, len)`: the inbound frame is in
`slf->reg_unipro_rx`. -/
def bus_greybus_from_base (K : slice_config) (w : World) (len : Nat) : Option World :=
  let rx := w.bus_data.reg_unipro_rx
  match rx[RX_CHECKSUM]? with
  | none => none
  | some umsg_checksum =>
    let checksum_error : Option Bool :=
      if umsg_checksum ≠ 0 then
        match add_bytes rx len 0 0 with
        | none => none
        | some checksum => some (checksum ≠ 0)
      else some false
    match checksum_error with
    | none => none
    | some true => some w
    | some false =>
      match rx[RX_BUNDLE_CPORT]? with
      | none => none
      | some bundle_cport =>
        if bundle_cport < K.SLICE_NUM_CPORTS then
          match rx[RX_HD_CPORT]? with
          | none => none
          | some hd_cport =>
            if bundle_cport < w.bus_data.to_base_cport.length then
              some { w with
                bus_data := { w.bus_data with
                  to_base_cport := w.bus_data.to_base_cport.set bundle_cport hd_cport }
                rx_handled :=
                  { cport := bundle_cport, data := rx.drop RX_DATA,
                    len := size_t_sub K.SIZE_BITS len 3 } :: w.rx_handled }
            else none
        else some w

/-- Modelled from the spec: `list_add(head, node)` of `nuttx/list.h` (not in
the source tree) appends the node at the tail of the queue. -/
def list_add (head : List slice_tx_msg) (node : slice_tx_msg) : List slice_tx_msg :=
  head ++ [node]

/-- The function `bus_greybus_to_base(cportid, buf, len)`. `m_ok` tells whether the first
`malloc` succeeds; `umsg_mem` is the outcome of the second one. The result is
the return value and the new world. -/
def bus_greybus_to_base (K : slice_config) (w : World) (m_ok : Bool)
    (umsg_mem : Option (Nat → Nat)) (cportid : Nat) (buf : List Nat) (len : Nat) :
    Option (Int × World) :=
  if !m_ok then some (-ENOMEM, w)
  else
    let size := size_t_add K.SIZE_BITS len SIZEOF_MSG_TX
    match umsg_mem with
    | none => some (-ENOMEM, w)
    | some garbage =>
      let umsg := malloc_block size garbage
      if size < SIZEOF_MSG_TX then none
      else
        let umsg := umsg.set TX_CHECKSUM 0
        match w.bus_data.to_base_cport[cportid]? with
        | none => none
        | some hd_cport =>
          let umsg := umsg.set TX_HD_CPORT hd_cport
          match memcpy_at umsg SIZEOF_MSG_TX buf len with
          | none => none
          | some umsg =>
            match calc_checksum umsg size with
            | none => none
            | some chk =>
              let umsg := umsg.set TX_CHECKSUM chk
              let m : slice_tx_msg := { buf := umsg, size := size }
              let w1 : World :=
                { w with bus_data := { w.bus_data with
                    reg_unipro_tx_fifo := list_add w.bus_data.reg_unipro_tx_fifo m } }
              some (0, bus_interrupt w1 K.SLICE_REG_INT_UNIPRO true)

/-- The function `bus_svc_to_base(buf, length)`, with the two `malloc` outcomes as in
`bus_greybus_to_base`. -/
def bus_svc_to_base (K : slice_config) (w : World) (m_ok : Bool)
    (buf_mem : Option (Nat → Nat)) (buf : List Nat) (length : Nat) :
    Option (Int × World) :=
  if m_ok then
    match buf_mem with
    | some garbage =>
      match memcpy_at (malloc_block length garbage) 0 buf length with
      | none => none
      | some mbuf =>
        let m : slice_tx_msg := { buf := mbuf, size := length }
        let w1 : World :=
          { w with bus_data := { w.bus_data with
              reg_svc_tx_fifo := list_add w.bus_data.reg_svc_tx_fifo m } }
        some (0, bus_interrupt w1 K.SLICE_REG_INT_SVC true)
    | none => some (-1, w)
  else some (-1, w)

/-- The function `bus_cleanup_list(head)`: walks the queue, unlinks and frees every message.
Returns the queue that is left and the freed messages, most recent first,
in front of `freed`. -/
def bus_cleanup_list : List slice_tx_msg → List slice_tx_msg → List slice_tx_msg × List slice_tx_msg
  | [], freed => ([], freed)
  | m :: rest, freed => bus_cleanup_list rest (m :: freed)

/-- The function `bus_cleanup()`: deasserts both reasons, then drops the
messages of the data-plane queue and of the control-plane queue. -/
def bus_cleanup (K : slice_config) (w : World) : World :=
  let w1 := bus_interrupt w (K.SLICE_REG_INT_SVC ||| K.SLICE_REG_INT_UNIPRO) false
  let r1 := bus_cleanup_list w1.bus_data.reg_unipro_tx_fifo w1.freed
  let w2 : World :=
    { w1 with bus_data := { w1.bus_data with reg_unipro_tx_fifo := r1.1 }, freed := r1.2 }
  let r2 := bus_cleanup_list w2.bus_data.reg_svc_tx_fifo w2.freed
  { w2 with bus_data := { w2.bus_data with reg_svc_tx_fifo := r2.1 }, freed := r2.2 }

/-! ## The transport side of the queues and sequences of sends -/

/-- Modelled from the spec: `drain_next(queue)`, the transport's removal of the
head of a queue (the draining code of `bus-i2c.c` is not in the source tree).
Returns the message, if any, and the queue that is left. -/
def drain_next : List slice_tx_msg → Option slice_tx_msg × List slice_tx_msg
  | [] => (none, [])
  | m :: rest => (some m, rest)

/-- The messages obtained by `n` successive calls of `drain_next`, in the order
in which they come out, and the queue that is left. -/
def drain_times : Nat → List slice_tx_msg → List slice_tx_msg × List slice_tx_msg
  | 0, q => ([], q)
  | n + 1, q =>
    match drain_next q with
    | (none, q1) => ([], q1)
    | (some m, q1) => ((m :: (drain_times n q1).1), (drain_times n q1).2)

/-- A sequence of data-plane sends `bus_greybus_to_base(cportid, buf, len)`, each
given as cport, payload and the contents of the block `malloc` hands out. -/
def greybus_sends (K : slice_config) (w : World) :
    List (Nat × List Nat × (Nat → Nat)) → Option World
  | [] => some w
  | r :: rest =>
    match bus_greybus_to_base K w true (some r.2.2) r.1 r.2.1 r.2.1.length with
    | none => none
    | some res => greybus_sends K res.2 rest

/-- A sequence of control-plane sends `bus_svc_to_base(buf, length)`, each given
as buffer and the contents of the block `malloc` hands out. -/
def svc_sends (K : slice_config) (w : World) :
    List (List Nat × (Nat → Nat)) → Option World
  | [] => some w
  | r :: rest =>
    match bus_svc_to_base K w true (some r.2) r.1 r.1.length with
    | none => none
    | some res => svc_sends K res.2 rest

/-! ## Runs of the bus -/

/-- The function `bus_init()` on the zero-initialised static `bus_data`: both
queues are initialised empty, and the value of `bus_i2c_init`, here the
parameter `i2c_ret`, is returned as it is. `rx_size` is the size of the array
`reg_unipro_rx`. -/
def bus_init (K : slice_config) (rx_size : Nat) (i2c_ret : Int) : Int × World :=
  (i2c_ret,
    { bus_data :=
        { reg_int := 0, reg_unipro_rx := List.replicate rx_size 0,
          to_base_cport := List.replicate K.SLICE_NUM_CPORTS 0,
          reg_unipro_tx_fifo := [], reg_svc_tx_fifo := [] }
      host_int := [], rx_handled := [], freed := [] })

/-- One step of a run of the bus: a call of one of the entry points of `bus.c`,
or one of the two things the transport does between them (spec, section 6):
taking the head of a queue, and asserting or clearing one of the two reasons
through `bus_interrupt`. -/
inductive bus_op where
  /-- The transport fills `reg_unipro_rx` and calls `bus_greybus_from_base(slf, len)`. -/
  | receive (rx : List Nat) (len : Nat)
  /-- A call `bus_greybus_to_base(cportid, buf, len)` with its `malloc` outcomes. -/
  | send_data (m_ok : Bool) (umsg_mem : Option (Nat → Nat)) (cportid : Nat) (buf : List Nat)
      (len : Nat)
  /-- A call `bus_svc_to_base(buf, length)` with its `malloc` outcomes. -/
  | send_control (m_ok : Bool) (buf_mem : Option (Nat → Nat)) (buf : List Nat) (length : Nat)
  /-- The transport takes the head of the control-plane (`true`) or of the
  data-plane (`false`) queue. -/
  | drain (svc : Bool)
  /-- A call `bus_interrupt(slf, mask, assert)` with `mask` the control-ready
  (`true`) or the data-ready (`false`) reason. -/
  | interrupt (svc : Bool) (assert : Bool)
  /-- A call `bus_cleanup()`. -/
  | cleanup

/-- The effect of one step; `none` when the call has no defined result. -/
def run_op (K : slice_config) (w : World) : bus_op → Option World
  | bus_op.receive rx len =>
    bus_greybus_from_base K { w with bus_data := { w.bus_data with reg_unipro_rx := rx } } len
  | bus_op.send_data m_ok umsg_mem cportid buf len =>
    (bus_greybus_to_base K w m_ok umsg_mem cportid buf len).map Prod.snd
  | bus_op.send_control m_ok buf_mem buf length =>
    (bus_svc_to_base K w m_ok buf_mem buf length).map Prod.snd
  | bus_op.drain true =>
    some { w with bus_data := { w.bus_data with
      reg_svc_tx_fifo := (drain_next w.bus_data.reg_svc_tx_fifo).2 } }
  | bus_op.drain false =>
    some { w with bus_data := { w.bus_data with
      reg_unipro_tx_fifo := (drain_next w.bus_data.reg_unipro_tx_fifo).2 } }
  | bus_op.interrupt true assert => some (bus_interrupt w K.SLICE_REG_INT_SVC assert)
  | bus_op.interrupt false assert => some (bus_interrupt w K.SLICE_REG_INT_UNIPRO assert)
  | bus_op.cleanup => some (bus_cleanup K w)

/-- The effect of a sequence of steps, first step first. -/
def run_ops (K : slice_config) : World → List bus_op → Option World
  | w, [] => some w
  | w, op :: rest =>
    match run_op K w op with
    | none => none
    | some w1 => run_ops K w1 rest

/-- The pending reasons are a byte and lie within the two reasons of `bus.h`. -/
def reasons_within (K : slice_config) (w : World) : Prop :=
  w.bus_data.reg_int < 256 ∧
  w.bus_data.reg_int &&& (K.SLICE_REG_INT_SVC ||| K.SLICE_REG_INT_UNIPRO) = w.bus_data.reg_int

/-! ## Names for the results of the encoder and the decoder -/

/-- The frame built by `bus_greybus_to_base`, byte by byte. -/
def tx_frame (hd g2 : Nat) (p : List Nat) : List Nat :=
  ((256 - (hd + (g2 + p.sum)) % 256) % 256) :: hd :: g2 :: p

/-- The world after `bus_greybus_from_base` accepted a frame of length `len`
with local cport `c` and host cport `h`. -/
def accepted (K : slice_config) (w : World) (len c h : Nat) : World :=
  { w with
    bus_data := { w.bus_data with to_base_cport := w.bus_data.to_base_cport.set c h }
    rx_handled :=
      { cport := c, data := w.bus_data.reg_unipro_rx.drop RX_DATA,
        len := size_t_sub K.SIZE_BITS len 3 } :: w.rx_handled }

/-! ## Example constants and states -/

/-- Constants used in the examples: eight cports, reason bits 1 and 2, a 32-bit
`size_t`. -/
def example_config : slice_config :=
  { SLICE_NUM_CPORTS := 8, SLICE_REG_INT_SVC := 1, SLICE_REG_INT_UNIPRO := 2, SIZE_BITS := 32 }

/-- A world with the given receive buffer, remap table and pending reasons, and
empty queues and logs. -/
def example_world (rx table : List Nat) (reg_int : Nat) : World :=
  { bus_data :=
      { reg_int := reg_int, reg_unipro_rx := rx, to_base_cport := table,
        reg_unipro_tx_fifo := [], reg_svc_tx_fifo := [] }
    host_int := [], rx_handled := [], freed := [] }

/-- A run that receives a frame for local cport 5 from host cport 7 and then
sends two data-plane and two control-plane messages. -/
def example_ops : List bus_op :=
  [bus_op.receive [0, 7, 5, 1] 4,
   bus_op.send_data true (some fun _ => 0) 5 [1] 1,
   bus_op.send_data true (some fun _ => 0) 5 [2] 1,
   bus_op.send_control true (some fun _ => 0) [10] 1,
   bus_op.send_control true (some fun _ => 0) [20] 1]

/-- The world `example_ops` leads to from the initial one: two messages on each
queue and both reasons pending. -/
def example_busy_world : World :=
  { bus_data :=
      { reg_int := 3, reg_unipro_rx := [0, 7, 5, 1], to_base_cport := [0, 0, 0, 0, 0, 7, 0, 0],
        reg_unipro_tx_fifo := [{ buf := [248, 7, 0, 1], size := 4 }, { buf := [247, 7, 0, 2], size := 4 }],
        reg_svc_tx_fifo := [{ buf := [10], size := 1 }, { buf := [20], size := 1 }] }
    host_int := [true, true, true, true], rx_handled := [{ cport := 5, data := [1], len := 1 }],
    freed := [] }

/-- Three data-plane sends with payloads `[1]`, `[2]`, `[3]`. -/
def example_sends : List (Nat × List Nat × (Nat → Nat)) :=
  [(5, [1], fun _ => 0), (5, [2], fun _ => 0), (6, [3], fun _ => 0)]

/-- Three control-plane sends with buffers `[10]`, `[20]`, `[30]`. -/
def example_ctl : List (List Nat × (Nat → Nat)) :=
  [([10], fun _ => 0), ([20], fun _ => 0), ([30], fun _ => 0)]

/-! ## Auxiliary facts -/

theorem add_bytes_sum (data : List Nat) :
    ∀ (n i acc : Nat), acc < 256 → i + n ≤ data.length →
      add_bytes data n i acc = some ((acc + ((data.drop i).take n).sum) % 256) := by
  intro n
  induction n with
  | zero =>
    intro i acc hacc _
    simp [add_bytes]
    omega
  | succ n ih =>
    intro i acc hacc hlen
    have hi : i < data.length := by omega
    have hd : data.drop i = data[i] :: data.drop (i + 1) := List.drop_eq_getElem_cons hi
    rw [add_bytes, List.getElem?_eq_getElem hi]
    simp only []
    rw [ih (i + 1) ((acc + data[i]) % 256) (Nat.mod_lt _ (by decide)) (by omega), hd,
      List.take_succ_cons, List.sum_cons]
    congr 1
    omega

theorem add_bytes_all (data : List Nat) :
    add_bytes data data.length 0 0 = some (data.sum % 256) := by
  rw [add_bytes_sum data data.length 0 0 (by decide) (by omega)]
  simp

theorem neg_byte (c : Nat) (hc : c < 256) :
    ((~~~(c : Int) + 1) % 256).toNat = (256 - c) % 256 := by
  have h : ~~~(c : Int) = -(c : Int) - 1 := by
    show Int.negSucc c = _
    rw [Int.negSucc_eq]
    omega
  rw [h]
  omega

theorem calc_checksum_all (data : List Nat) :
    calc_checksum data data.length = some ((256 - data.sum % 256) % 256) := by
  rw [calc_checksum, add_bytes_all]
  simp only []
  rw [neg_byte _ (Nat.mod_lt _ (by decide))]

/-! ## Checksum codec -/

/-- C1. Checksum round trip: for every byte sequence `d = a ++ b`,
`calc_checksum` returns a byte `c`, and the sequence made of the bytes of `d`
with `c` placed among them (at any position) has the 8-bit additive sum 0 that
the validation loop of `bus_greybus_from_base` requires. -/
theorem calc_checksum_round_trip (a b : List Nat) :
    ∃ c, calc_checksum (a ++ b) (a ++ b).length = some c ∧ c < 256 ∧
      add_bytes (a ++ c :: b) (a ++ c :: b).length 0 0 = some 0 := by
  refine ⟨_, calc_checksum_all (a ++ b), Nat.mod_lt _ (by decide), ?_⟩
  rw [add_bytes_all]
  simp only [List.sum_append, List.sum_cons]
  congr 1
  omega

theorem malloc_block_header (n : Nat) (g : Nat → Nat) :
    malloc_block (n + 3) g =
      (g 0 % 256) :: (g 1 % 256) :: (g 2 % 256) :: (List.range n).map (fun i => g (3 + i) % 256) := by
  unfold malloc_block
  rw [Nat.add_comm n 3, List.range_add]
  simp [List.range_succ, Function.comp_def]

theorem bus_greybus_to_base_ok (K : slice_config) (w : World) (g : Nat → Nat)
    (cportid : Nat) (buf : List Nat) (len hd : Nat)
    (hsz : len + 3 < 2 ^ K.SIZE_BITS) (hbuf : len ≤ buf.length)
    (hcp : w.bus_data.to_base_cport[cportid]? = some hd) :
    bus_greybus_to_base K w true (some g) cportid buf len =
      some (0, bus_interrupt
        { w with bus_data := { w.bus_data with
            reg_unipro_tx_fifo := w.bus_data.reg_unipro_tx_fifo ++
              [{ buf := tx_frame hd (g 2 % 256) (buf.take len), size := len + 3 }] } }
        K.SLICE_REG_INT_UNIPRO true) := by
  have hsize : size_t_add K.SIZE_BITS len 3 = len + 3 := Nat.mod_eq_of_lt hsz
  have hlen : ((0 :: hd :: (g 2 % 256) :: (buf.take len)).length) = len + 3 := by
    simp [List.length_take, Nat.min_eq_left hbuf]
  unfold bus_greybus_to_base
  simp only [SIZEOF_MSG_TX, TX_CHECKSUM, TX_HD_CPORT, hsize, hcp, malloc_block_header,
    List.set_cons_zero, List.set_cons_succ, memcpy_at, list_add]
  have hdrop : List.drop (3 + len)
      (0 :: hd :: g 2 % 256 :: List.map (fun i => g (3 + i) % 256) (List.range len)) = [] :=
    List.drop_eq_nil_of_le (by simp; omega)
  have hc : calc_checksum (0 :: hd :: g 2 % 256 :: List.take len buf) (len + 3) =
      some ((256 - (hd + (g 2 % 256 + (buf.take len).sum)) % 256) % 256) := by
    have h := calc_checksum_all (0 :: hd :: g 2 % 256 :: List.take len buf)
    rw [hlen] at h
    simpa using h
  have hle : 3 + len ≤ len + 1 + 1 + 1 := by omega
  simp [hbuf, hdrop, hc, hle, tx_frame]

/-! ## Frame encoder -/

/-- C2. Whenever both allocations succeed (and the call is free of undefined
behaviour: the cport indexes the remap table, `buf` holds `len` bytes and
`len + 3` fits `size_t`), `bus_greybus_to_base` returns 0 and appends one
message `m` to the data-plane queue whose `m->size` bytes sum to 0 modulo 256. -/
theorem bus_greybus_to_base_frame_sum_zero (K : slice_config) (w : World) (g : Nat → Nat)
    (cportid : Nat) (buf : List Nat) (len : Nat)
    (hsz : len + 3 < 2 ^ K.SIZE_BITS) (hbuf : len ≤ buf.length)
    (hcp : cportid < w.bus_data.to_base_cport.length) :
    ∃ m w', bus_greybus_to_base K w true (some g) cportid buf len = some (0, w') ∧
      w'.bus_data.reg_unipro_tx_fifo = w.bus_data.reg_unipro_tx_fifo ++ [m] ∧
      m.buf.length = m.size ∧ add_bytes m.buf m.size 0 0 = some 0 := by
  have hlen : (tx_frame w.bus_data.to_base_cport[cportid] (g 2 % 256) (buf.take len)).length
      = len + 3 := by
    simp [tx_frame, List.length_take, Nat.min_eq_left hbuf]
  refine ⟨_, _, bus_greybus_to_base_ok K w g cportid buf len _ hsz hbuf
    (List.getElem?_eq_getElem hcp), rfl, hlen, ?_⟩
  show add_bytes _ (len + 3) 0 0 = some 0
  rw [← hlen, add_bytes_all]
  simp only [tx_frame, List.sum_cons]
  congr 1
  omega

/-- Witness for C2: sending `[0xAA, 0xBB]` on cport 5. -/
theorem bus_greybus_to_base_frame_sum_zero_witness :
    (2 + 3 < 2 ^ example_config.SIZE_BITS ∧ 2 ≤ [0xAA, 0xBB].length ∧
      5 < (example_world [] [0, 0, 0, 0, 0, 7, 0, 0] 0).bus_data.to_base_cport.length) ∧
    ∃ m w', bus_greybus_to_base example_config (example_world [] [0, 0, 0, 0, 0, 7, 0, 0] 0)
        true (some fun _ => 0xEE) 5 [0xAA, 0xBB] 2 = some (0, w') ∧
      w'.bus_data.reg_unipro_tx_fifo =
        (example_world [] [0, 0, 0, 0, 0, 7, 0, 0] 0).bus_data.reg_unipro_tx_fifo ++ [m] ∧
      m.buf.length = m.size ∧ add_bytes m.buf m.size 0 0 = some 0 :=
  ⟨by decide, bus_greybus_to_base_frame_sum_zero _ _ _ _ _ _ (by decide) (by decide) (by decide)⟩

/-- C3, as stated, fails: after host cport 7 was recorded for local cport 5,
`send_data(5, [0xAA, 0xBB])` on a zero-filled block queues the frame
`[148, 7, 0, 0xAA, 0xBB]`, whose local cport byte is 0 and not 5. -/
theorem bus_greybus_to_base_local_cport_not_echoed :
    (bus_greybus_to_base example_config (example_world [] [0, 0, 0, 0, 0, 7, 0, 0] 0)
        true (some fun _ => 0) 5 [0xAA, 0xBB] 2).map
      (fun r => r.2.bus_data.reg_unipro_tx_fifo.map (fun m => (m.buf, m.buf[TX_BUNDLE_CPORT]?)))
      = some [([148, 7, 0, 0xAA, 0xBB], some 0)] := by
  decide

/-- C3, amended. For a local cport `c` with `to_base_cport[c] = h` and a payload
`p` of length `n` (with `n + 3` in the range of `size_t`), a successful
`bus_greybus_to_base(c, p, n)` returns 0 and appends to the data-plane queue a
frame of exactly `3 + n` bytes whose header holds `host_cport = h` and whose
bytes after the 3-byte header equal `p`. Nothing is said about a local cport
byte in the header. -/
theorem bus_greybus_to_base_frame (K : slice_config) (w : World) (g : Nat → Nat)
    (c h : Nat) (p : List Nat)
    (hsz : p.length + 3 < 2 ^ K.SIZE_BITS)
    (hcp : w.bus_data.to_base_cport[c]? = some h) :
    ∃ m w', bus_greybus_to_base K w true (some g) c p p.length = some (0, w') ∧
      w'.bus_data.reg_unipro_tx_fifo = w.bus_data.reg_unipro_tx_fifo ++ [m] ∧
      w'.bus_data.reg_svc_tx_fifo = w.bus_data.reg_svc_tx_fifo ∧
      m.size = 3 + p.length ∧ m.buf.length = 3 + p.length ∧
      m.buf[TX_HD_CPORT]? = some h ∧
      m.buf.drop SIZEOF_MSG_TX = p := by
  refine ⟨_, _, bus_greybus_to_base_ok K w g c p p.length h hsz (Nat.le_refl _) hcp,
    rfl, rfl, ?_, ?_, ?_, ?_⟩ <;> simp [tx_frame] <;> omega

/-- Witness for C3: `send_data(5, [0xAA, 0xBB])` after host cport 7 was recorded
for local cport 5. -/
theorem bus_greybus_to_base_frame_witness :
    ([0xAA, 0xBB].length + 3 < 2 ^ example_config.SIZE_BITS ∧
      (example_world [] [0, 0, 0, 0, 0, 7, 0, 0] 0).bus_data.to_base_cport[5]? = some 7) ∧
    ∃ m w', bus_greybus_to_base example_config (example_world [] [0, 0, 0, 0, 0, 7, 0, 0] 0)
        true (some fun _ => 0xEE) 5 [0xAA, 0xBB] [0xAA, 0xBB].length = some (0, w') ∧
      w'.bus_data.reg_unipro_tx_fifo =
        (example_world [] [0, 0, 0, 0, 0, 7, 0, 0] 0).bus_data.reg_unipro_tx_fifo ++ [m] ∧
      w'.bus_data.reg_svc_tx_fifo =
        (example_world [] [0, 0, 0, 0, 0, 7, 0, 0] 0).bus_data.reg_svc_tx_fifo ∧
      m.size = 3 + [0xAA, 0xBB].length ∧ m.buf.length = 3 + [0xAA, 0xBB].length ∧
      m.buf[TX_HD_CPORT]? = some 7 ∧
      m.buf.drop SIZEOF_MSG_TX = [0xAA, 0xBB] :=
  ⟨by decide, bus_greybus_to_base_frame _ _ _ _ _ _ (by decide) (by decide)⟩

/-! ## Frame decoder -/

theorem add_bytes_take (rx : List Nat) (len : Nat) (hlen : len ≤ rx.length) :
    add_bytes rx len 0 0 = some ((rx.take len).sum % 256) := by
  rw [add_bytes_sum rx len 0 0 (by decide) (by omega)]
  simp

theorem from_base_stage_passed (K : slice_config) (w : World) (len c0 : Nat)
    (h0 : w.bus_data.reg_unipro_rx[RX_CHECKSUM]? = some c0)
    (hpass : c0 = 0 ∨ (len ≤ w.bus_data.reg_unipro_rx.length ∧
      (w.bus_data.reg_unipro_rx.take len).sum % 256 = 0)) :
    bus_greybus_from_base K w len =
      match w.bus_data.reg_unipro_rx[RX_BUNDLE_CPORT]? with
      | none => none
      | some bundle_cport =>
        if bundle_cport < K.SLICE_NUM_CPORTS then
          match w.bus_data.reg_unipro_rx[RX_HD_CPORT]? with
          | none => none
          | some hd_cport =>
            if bundle_cport < w.bus_data.to_base_cport.length then
              some (accepted K w len bundle_cport hd_cport)
            else none
        else some w := by
  unfold bus_greybus_from_base
  simp only [h0]
  by_cases hz : c0 = 0
  · simp [hz, accepted]
  · rcases hpass with h | ⟨hlen, hsum⟩
    · exact absurd h hz
    · simp only [add_bytes_take _ _ hlen]
      simp [hz, hsum, accepted]

theorem size_t_sub_of_le (bits a b : Nat) (hb : b ≤ a) (ha : a < 2 ^ bits) :
    size_t_sub bits a b = a - b := by
  unfold size_t_sub
  have h1 : ((a : Int) - (b : Int)) = ((a - b : Nat) : Int) := by omega
  have h2 : ((2 : Int) ^ bits) = ((2 ^ bits : Nat) : Int) := by norm_cast
  rw [h1, h2, ← Int.ofNat_emod, Int.toNat_ofNat]
  exact Nat.mod_eq_of_lt (by omega)

/-- C4. An inbound buffer whose checksum byte is not zero and whose first `len`
bytes do not sum to 0 modulo 256 is discarded: the call returns the world it
was given, so the router was not called (`rx_handled` is the same) and the
remap table, the pending reasons and both queues are unchanged. -/
theorem bus_greybus_from_base_checksum_error (K : slice_config) (w : World) (len c0 : Nat)
    (h0 : w.bus_data.reg_unipro_rx[RX_CHECKSUM]? = some c0) (hnz : c0 ≠ 0)
    (hlen : len ≤ w.bus_data.reg_unipro_rx.length)
    (hsum : (w.bus_data.reg_unipro_rx.take len).sum % 256 ≠ 0) :
    bus_greybus_from_base K w len = some w := by
  unfold bus_greybus_from_base
  simp only [h0, add_bytes_take _ _ hlen]
  simp [hnz, hsum]

/-- Witness for C4: a frame for cport 5 whose checksum byte 1 is wrong. -/
theorem bus_greybus_from_base_checksum_error_witness :
    ((example_world [1, 7, 5, 1, 2, 3] [0, 0, 0, 0, 0, 0, 0, 0] 0).bus_data.reg_unipro_rx[RX_CHECKSUM]?
        = some 1 ∧ 1 ≠ 0 ∧
      6 ≤ (example_world [1, 7, 5, 1, 2, 3] [0, 0, 0, 0, 0, 0, 0, 0] 0).bus_data.reg_unipro_rx.length ∧
      ((example_world [1, 7, 5, 1, 2, 3] [0, 0, 0, 0, 0, 0, 0, 0] 0).bus_data.reg_unipro_rx.take 6).sum
        % 256 ≠ 0) ∧
    bus_greybus_from_base example_config (example_world [1, 7, 5, 1, 2, 3] [0, 0, 0, 0, 0, 0, 0, 0] 0) 6
      = some (example_world [1, 7, 5, 1, 2, 3] [0, 0, 0, 0, 0, 0, 0, 0] 0) :=
  ⟨by decide, bus_greybus_from_base_checksum_error _ _ _ 1 (by decide) (by decide) (by decide)
    (by decide)⟩

/-- C5. Zero-checksum bypass: when the checksum byte is 0 and the local cport
`c` is below `SLICE_NUM_CPORTS` (the size of the remap table), the frame is
accepted whatever its other bytes and whatever `len`: the host cport is
recorded and the router is called once. No byte sum enters the result. -/
theorem bus_greybus_from_base_zero_checksum (K : slice_config) (w : World) (len c h : Nat)
    (h0 : w.bus_data.reg_unipro_rx[RX_CHECKSUM]? = some 0)
    (hh : w.bus_data.reg_unipro_rx[RX_HD_CPORT]? = some h)
    (hc : w.bus_data.reg_unipro_rx[RX_BUNDLE_CPORT]? = some c)
    (hr : c < K.SLICE_NUM_CPORTS)
    (hwf : w.bus_data.to_base_cport.length = K.SLICE_NUM_CPORTS) :
    bus_greybus_from_base K w len =
      some { w with
        bus_data := { w.bus_data with to_base_cport := w.bus_data.to_base_cport.set c h }
        rx_handled :=
          { cport := c, data := w.bus_data.reg_unipro_rx.drop 3,
            len := size_t_sub K.SIZE_BITS len 3 } :: w.rx_handled } := by
  rw [from_base_stage_passed K w len 0 h0 (Or.inl rfl)]
  simp [hh, hc, hr, hwf, accepted]

/-- Witness for C5: checksum byte 0, bytes that do not sum to 0. -/
theorem bus_greybus_from_base_zero_checksum_witness :
    ((example_world [0, 7, 5, 1, 2, 3] [0, 0, 0, 0, 0, 0, 0, 0] 0).bus_data.reg_unipro_rx[RX_CHECKSUM]?
        = some 0 ∧
      (example_world [0, 7, 5, 1, 2, 3] [0, 0, 0, 0, 0, 0, 0, 0] 0).bus_data.reg_unipro_rx[RX_HD_CPORT]?
        = some 7 ∧
      (example_world [0, 7, 5, 1, 2, 3] [0, 0, 0, 0, 0, 0, 0, 0] 0).bus_data.reg_unipro_rx[RX_BUNDLE_CPORT]?
        = some 5 ∧
      5 < example_config.SLICE_NUM_CPORTS ∧
      (example_world [0, 7, 5, 1, 2, 3] [0, 0, 0, 0, 0, 0, 0, 0] 0).bus_data.to_base_cport.length
        = example_config.SLICE_NUM_CPORTS) ∧
    bus_greybus_from_base example_config (example_world [0, 7, 5, 1, 2, 3] [0, 0, 0, 0, 0, 0, 0, 0] 0) 6 =
      some { example_world [0, 7, 5, 1, 2, 3] [0, 0, 0, 0, 0, 0, 0, 0] 0 with
        bus_data := { (example_world [0, 7, 5, 1, 2, 3] [0, 0, 0, 0, 0, 0, 0, 0] 0).bus_data with
          to_base_cport :=
            (example_world [0, 7, 5, 1, 2, 3] [0, 0, 0, 0, 0, 0, 0, 0] 0).bus_data.to_base_cport.set 5 7 }
        rx_handled :=
          { cport := 5,
            data := (example_world [0, 7, 5, 1, 2, 3] [0, 0, 0, 0, 0, 0, 0, 0] 0).bus_data.reg_unipro_rx.drop 3,
            len := size_t_sub example_config.SIZE_BITS 6 3 } ::
          (example_world [0, 7, 5, 1, 2, 3] [0, 0, 0, 0, 0, 0, 0, 0] 0).rx_handled } :=
  ⟨by decide, bus_greybus_from_base_zero_checksum _ _ _ _ _ (by decide) (by decide) (by decide)
    (by decide) (by decide)⟩

/-- C6. A frame that passes the checksum stage (its checksum byte is 0, or its
first `len` bytes sum to 0 modulo 256) but whose local cport is not below
`SLICE_NUM_CPORTS` is discarded: the call returns the world it was given, so no
remap entry was written and the router was not called. -/
theorem bus_greybus_from_base_invalid_cport (K : slice_config) (w : World) (len c0 c : Nat)
    (h0 : w.bus_data.reg_unipro_rx[RX_CHECKSUM]? = some c0)
    (hpass : c0 = 0 ∨ (len ≤ w.bus_data.reg_unipro_rx.length ∧
      (w.bus_data.reg_unipro_rx.take len).sum % 256 = 0))
    (hc : w.bus_data.reg_unipro_rx[RX_BUNDLE_CPORT]? = some c)
    (hr : ¬ c < K.SLICE_NUM_CPORTS) :
    bus_greybus_from_base K w len = some w := by
  rw [from_base_stage_passed K w len c0 h0 hpass]
  simp [hc, hr]

/-- Witness for C6: a frame with a valid checksum for local cport 9 when there
are eight cports. -/
theorem bus_greybus_from_base_invalid_cport_witness :
    ((example_world [234, 7, 9, 1, 2, 3] [0, 0, 0, 0, 0, 0, 0, 0] 0).bus_data.reg_unipro_rx[RX_CHECKSUM]?
        = some 234 ∧
      (234 = 0 ∨
        (6 ≤ (example_world [234, 7, 9, 1, 2, 3] [0, 0, 0, 0, 0, 0, 0, 0] 0).bus_data.reg_unipro_rx.length ∧
        ((example_world [234, 7, 9, 1, 2, 3] [0, 0, 0, 0, 0, 0, 0, 0] 0).bus_data.reg_unipro_rx.take 6).sum
          % 256 = 0)) ∧
      (example_world [234, 7, 9, 1, 2, 3] [0, 0, 0, 0, 0, 0, 0, 0] 0).bus_data.reg_unipro_rx[RX_BUNDLE_CPORT]?
        = some 9 ∧
      ¬ 9 < example_config.SLICE_NUM_CPORTS) ∧
    bus_greybus_from_base example_config (example_world [234, 7, 9, 1, 2, 3] [0, 0, 0, 0, 0, 0, 0, 0] 0) 6
      = some (example_world [234, 7, 9, 1, 2, 3] [0, 0, 0, 0, 0, 0, 0, 0] 0) :=
  ⟨by decide, bus_greybus_from_base_invalid_cport _ _ _ 234 9 (by decide) (by decide) (by decide)
    (by decide)⟩

theorem from_base_cases (K : slice_config) (w w2 : World) (len : Nat)
    (h : bus_greybus_from_base K w len = some w2) :
    w2 = w ∨ ∃ c hd, w.bus_data.reg_unipro_rx[RX_BUNDLE_CPORT]? = some c ∧
      w.bus_data.reg_unipro_rx[RX_HD_CPORT]? = some hd ∧ c < K.SLICE_NUM_CPORTS ∧
      w2 = accepted K w len c hd := by
  unfold bus_greybus_from_base at h
  dsimp only at h
  split at h
  · exact absurd h (by simp)
  · split at h
    · exact absurd h (by simp)
    · exact Or.inl (Option.some.inj h).symm
    · split at h
      · exact absurd h (by simp)
      · rename_i c hc
        split at h
        · rename_i hr
          split at h
          · exact absurd h (by simp)
          · rename_i hd hh
            split at h
            · exact Or.inr ⟨c, hd, hc, hh, hr, (Option.some.inj h).symm⟩
            · exact absurd h (by simp)
        · exact Or.inl (Option.some.inj h).symm

/-- C7. A frame of length `len ≥ 3` that passes the checksum stage, with local
cport `c < SLICE_NUM_CPORTS` and host cport `h`, is accepted: entry `c` of the
remap table becomes `h` and no other entry changes, and the router is called
once with channel `c`, the data pointer at offset 3 and length `len - 3`, that
is with the `len - 3` bytes that follow the header. Afterwards the encoder's
lookup for `c` yields `h`, and it still does after any later inbound frame that
is not accepted on `c`. -/
theorem bus_greybus_from_base_accept (K : slice_config) (w : World) (len c0 c h : Nat)
    (h3 : 3 ≤ len) (hsz : len < 2 ^ K.SIZE_BITS)
    (hlen : len ≤ w.bus_data.reg_unipro_rx.length)
    (h0 : w.bus_data.reg_unipro_rx[RX_CHECKSUM]? = some c0)
    (hpass : c0 = 0 ∨ (w.bus_data.reg_unipro_rx.take len).sum % 256 = 0)
    (hh : w.bus_data.reg_unipro_rx[RX_HD_CPORT]? = some h)
    (hc : w.bus_data.reg_unipro_rx[RX_BUNDLE_CPORT]? = some c)
    (hr : c < K.SLICE_NUM_CPORTS)
    (hwf : w.bus_data.to_base_cport.length = K.SLICE_NUM_CPORTS) :
    ∃ w', bus_greybus_from_base K w len = some w' ∧
      w' = { w with
        bus_data := { w.bus_data with to_base_cport := w.bus_data.to_base_cport.set c h }
        rx_handled :=
          { cport := c, data := w.bus_data.reg_unipro_rx.drop 3, len := len - 3 } ::
            w.rx_handled } ∧
      w'.bus_data.to_base_cport[c]? = some h ∧
      (∀ j, j ≠ c → w'.bus_data.to_base_cport[j]? = w.bus_data.to_base_cport[j]?) ∧
      ((w.bus_data.reg_unipro_rx.drop 3).take (len - 3)).length = len - 3 ∧
      (∀ (g : Nat → Nat) (p : List Nat), p.length + 3 < 2 ^ K.SIZE_BITS →
        ∃ m w2, bus_greybus_to_base K w' true (some g) c p p.length = some (0, w2) ∧
          w2.bus_data.reg_unipro_tx_fifo = w'.bus_data.reg_unipro_tx_fifo ++ [m] ∧
          m.buf[TX_HD_CPORT]? = some h) ∧
      (∀ (rx2 : List Nat) (len2 : Nat) (w2 : World),
        bus_greybus_from_base K
          { w' with bus_data := { w'.bus_data with reg_unipro_rx := rx2 } } len2 = some w2 →
        rx2[RX_BUNDLE_CPORT]? ≠ some c → w2.bus_data.to_base_cport[c]? = some h) := by
  have hcl : c < w.bus_data.to_base_cport.length := by omega
  have hget : (w.bus_data.to_base_cport.set c h)[c]? = some h := by
    simp [List.getElem?_set, hcl]
  refine ⟨_, ?_, rfl, hget, ?_, ?_, ?_, ?_⟩
  · rw [from_base_stage_passed K w len c0 h0 (hpass.imp id (fun hs => ⟨hlen, hs⟩))]
    simp [hh, hc, hr, hcl, accepted, size_t_sub_of_le _ _ _ h3 hsz]
  · intro j hj
    simp [List.getElem?_set, Ne.symm hj]
  · simp [List.length_take, List.length_drop]
    omega
  · intro g p hp
    refine ⟨_, _, bus_greybus_to_base_ok K _ g c p p.length h hp (Nat.le_refl _) hget,
      rfl, ?_⟩
    simp [tx_frame]
  · intro rx2 len2 w2 hrun hne
    rcases from_base_cases K _ w2 len2 hrun with h1 | ⟨c2, hd2, hc2, -, -, h1⟩
    · rw [h1]
      exact hget
    · rw [h1]
      have hcc : c2 ≠ c := by
        intro heq
        apply hne
        rw [← heq]
        exact hc2
      simp only [accepted]
      rw [List.getElem?_set_ne hcc]
      exact hget

/-- Witness for C7: the frame `[238, 7, 5, 1, 2, 3]` of length 6 (its bytes sum
to 256) records host cport 7 for local cport 5 and hands `[1, 2, 3]` to the
router. -/
theorem bus_greybus_from_base_accept_witness :
    bus_greybus_from_base example_config (example_world [238, 7, 5, 1, 2, 3] [0, 0, 0, 0, 0, 0, 0, 0] 0) 6
      = some { example_world [238, 7, 5, 1, 2, 3] [0, 0, 0, 0, 0, 7, 0, 0] 0 with
          rx_handled := [{ cport := 5, data := [1, 2, 3], len := 3 }] } := by
  obtain ⟨w', hrun, hw', -⟩ := bus_greybus_from_base_accept example_config
    (example_world [238, 7, 5, 1, 2, 3] [0, 0, 0, 0, 0, 0, 0, 0] 0) 6 238 5 7
    (by decide) (by decide) (by decide) (by decide) (by decide) (by decide) (by decide)
    (by decide) (by decide)
  rw [hrun, hw']
  rfl

/-! ## Interrupt signal controller -/

/-- C8. Interrupt invariant: after any finite sequence of `bus_interrupt`
calls from any starting world, followed by one more call, the value last
passed to `slice_host_int_set` is `reg_int != 0`. So the invariant holds after
every single call and after every non-empty sequence of assert and deassert
calls. -/
theorem bus_interrupt_line (w : World) (calls : List (Nat × Bool)) (int_mask : Nat)
    (assert : Bool) :
    (bus_interrupt (calls.foldl (fun v c => bus_interrupt v c.1 c.2) w) int_mask assert).line =
      some (decide ((bus_interrupt (calls.foldl (fun v c => bus_interrupt v c.1 c.2) w)
        int_mask assert).bus_data.reg_int ≠ 0)) := by
  simp [bus_interrupt, World.line, Nat.pos_iff_ne_zero]

/-! ## Outbound queues -/

theorem drain_times_all (q : List slice_tx_msg) : drain_times q.length q = (q, []) := by
  induction q with
  | nil => rfl
  | cons m q ih => simp [drain_times, drain_next, ih]

theorem bus_svc_to_base_ok (K : slice_config) (w : World) (g : Nat → Nat) (buf : List Nat) :
    bus_svc_to_base K w true (some g) buf buf.length =
      some (0, bus_interrupt
        { w with bus_data := { w.bus_data with
            reg_svc_tx_fifo := w.bus_data.reg_svc_tx_fifo ++ [{ buf := buf, size := buf.length }] } }
        K.SLICE_REG_INT_SVC true) := by
  have hdrop : List.drop buf.length
      (List.map (fun i => g i % 256) (List.range buf.length)) = [] :=
    List.drop_eq_nil_of_le (by simp)
  simp [bus_svc_to_base, memcpy_at, list_add, hdrop, malloc_block]

theorem to_base_step (K : slice_config) (w : World) (g : Nat → Nat) (c : Nat) (p : List Nat)
    (hc : c < w.bus_data.to_base_cport.length) (hsz : p.length + 3 < 2 ^ K.SIZE_BITS) :
    ∃ m w1, bus_greybus_to_base K w true (some g) c p p.length = some (0, w1) ∧
      w1.bus_data.to_base_cport = w.bus_data.to_base_cport ∧
      w1.bus_data.reg_unipro_tx_fifo = w.bus_data.reg_unipro_tx_fifo ++ [m] ∧
      m.buf.drop SIZEOF_MSG_TX = p := by
  refine ⟨_, _, bus_greybus_to_base_ok K w g c p p.length _ hsz (Nat.le_refl _)
    (List.getElem?_eq_getElem hc), rfl, rfl, ?_⟩
  simp [tx_frame]

theorem greybus_sends_ok (K : slice_config) :
    ∀ (reqs : List (Nat × List Nat × (Nat → Nat))) (w : World),
      (∀ r ∈ reqs, r.1 < w.bus_data.to_base_cport.length ∧
        r.2.1.length + 3 < 2 ^ K.SIZE_BITS) →
      ∃ w' ms, greybus_sends K w reqs = some w' ∧
        w'.bus_data.to_base_cport = w.bus_data.to_base_cport ∧
        ms.map (fun m => m.buf.drop SIZEOF_MSG_TX) = reqs.map (fun r => r.2.1) ∧
        w'.bus_data.reg_unipro_tx_fifo = w.bus_data.reg_unipro_tx_fifo ++ ms := by
  intro reqs
  induction reqs with
  | nil => intro w _; exact ⟨w, [], rfl, rfl, rfl, by simp⟩
  | cons r rest ih =>
    intro w hreq
    obtain ⟨hr1, hr2⟩ := hreq r (List.mem_cons_self _ _)
    obtain ⟨m, w1, hstep, htab1, hq1, hpay1⟩ := to_base_step K w r.2.2 r.1 r.2.1 hr1 hr2
    obtain ⟨w', ms, hrun, htab, hpay, hq⟩ := ih w1
      (fun x hx => htab1 ▸ hreq x (List.mem_cons_of_mem _ hx))
    refine ⟨w', m :: ms, ?_, htab.trans htab1, ?_, ?_⟩
    · rw [greybus_sends, hstep]
      exact hrun
    · rw [List.map_cons, List.map_cons, hpay, hpay1]
    · rw [hq, hq1]
      simp

theorem svc_sends_ok (K : slice_config) :
    ∀ (reqs : List (List Nat × (Nat → Nat))) (w : World),
      ∃ w', svc_sends K w reqs = some w' ∧
        w'.bus_data.reg_svc_tx_fifo = w.bus_data.reg_svc_tx_fifo ++
          reqs.map (fun r => { buf := r.1, size := r.1.length }) := by
  intro reqs
  induction reqs with
  | nil => intro w; exact ⟨w, rfl, by simp⟩
  | cons r rest ih =>
    intro w
    obtain ⟨w', hrun, hq⟩ := ih
      (bus_interrupt
        { w with bus_data := { w.bus_data with
            reg_svc_tx_fifo := w.bus_data.reg_svc_tx_fifo ++ [{ buf := r.1, size := r.1.length }] } }
        K.SLICE_REG_INT_SVC true)
    refine ⟨w', ?_, ?_⟩
    · rw [svc_sends, bus_svc_to_base_ok]
      exact hrun
    · rw [hq]
      simp [bus_interrupt]

/-- C9. FIFO order, for either queue. A sequence of successful data-plane sends
appends its frames to the data-plane queue in the order of the sends (the
frames are told apart by their payloads), a sequence of successful
control-plane sends appends its messages to the control-plane queue in the
order of the sends, and draining a queue from its head as many times as it has
messages yields the messages that were already queued followed by the new ones
in the order in which they were sent. -/
theorem send_drain_fifo (K : slice_config) (w : World)
    (reqs : List (Nat × List Nat × (Nat → Nat))) (ctl : List (List Nat × (Nat → Nat)))
    (hreq : ∀ r ∈ reqs, r.1 < w.bus_data.to_base_cport.length ∧
      r.2.1.length + 3 < 2 ^ K.SIZE_BITS) :
    (∃ w' ms, greybus_sends K w reqs = some w' ∧
      ms.map (fun m => m.buf.drop SIZEOF_MSG_TX) = reqs.map (fun r => r.2.1) ∧
      w'.bus_data.reg_unipro_tx_fifo = w.bus_data.reg_unipro_tx_fifo ++ ms ∧
      drain_times (w.bus_data.reg_unipro_tx_fifo.length + reqs.length)
        w'.bus_data.reg_unipro_tx_fifo = (w.bus_data.reg_unipro_tx_fifo ++ ms, [])) ∧
    (∃ w', svc_sends K w ctl = some w' ∧
      w'.bus_data.reg_svc_tx_fifo = w.bus_data.reg_svc_tx_fifo ++
        ctl.map (fun r => { buf := r.1, size := r.1.length }) ∧
      drain_times (w.bus_data.reg_svc_tx_fifo.length + ctl.length)
        w'.bus_data.reg_svc_tx_fifo =
        (w.bus_data.reg_svc_tx_fifo ++ ctl.map (fun r => { buf := r.1, size := r.1.length }), [])) := by
  constructor
  · obtain ⟨w', ms, hrun, -, hpay, hq⟩ := greybus_sends_ok K reqs w hreq
    refine ⟨w', ms, hrun, hpay, hq, ?_⟩
    have hl : ms.length = reqs.length := by
      have := congrArg List.length hpay
      simpa using this
    rw [hq, ← hl, ← List.length_append]
    exact drain_times_all _
  · obtain ⟨w', hrun, hq⟩ := svc_sends_ok K ctl w
    refine ⟨w', hrun, hq, ?_⟩
    rw [hq]
    have hl : (ctl.map (fun r => ({ buf := r.1, size := r.1.length } : slice_tx_msg))).length
        = ctl.length := List.length_map _ _
    rw [← hl, ← List.length_append]
    exact drain_times_all _

/-- Witness for C9: three messages on each queue, starting from empty queues. -/
theorem send_drain_fifo_witness :
    (greybus_sends example_config (example_world [] [0, 0, 0, 0, 0, 7, 0, 0] 0) example_sends).map
        (fun w => (drain_times 3 w.bus_data.reg_unipro_tx_fifo).1.map
          (fun m => m.buf.drop SIZEOF_MSG_TX)) = some [[1], [2], [3]] ∧
    (svc_sends example_config (example_world [] [0, 0, 0, 0, 0, 7, 0, 0] 0) example_ctl).map
        (fun w => (drain_times 3 w.bus_data.reg_svc_tx_fifo).1.map (fun m => m.buf))
      = some [[10], [20], [30]] := by
  obtain ⟨⟨w1, ms, h1, hp, -, hd⟩, ⟨w2, h2, -, hd2⟩⟩ :=
    send_drain_fifo example_config (example_world [] [0, 0, 0, 0, 0, 7, 0, 0] 0)
      example_sends example_ctl (by decide)
  constructor
  · rw [h1]
    have hd3 : drain_times 3 w1.bus_data.reg_unipro_tx_fifo = (ms, []) := hd
    simp only [Option.map_some', hd3, hp]
    rfl
  · rw [h2]
    have hd3 : drain_times 3 w2.bus_data.reg_svc_tx_fifo =
        (example_ctl.map (fun r => { buf := r.1, size := r.1.length }), []) := hd2
    simp only [Option.map_some', hd3]
    rfl

/-! ## Lifecycle -/

theorem bus_cleanup_list_eq (q freed : List slice_tx_msg) :
    bus_cleanup_list q freed = ([], q.reverse ++ freed) := by
  induction q generalizing freed with
  | nil => rfl
  | cons m q ih => simp [bus_cleanup_list, ih]

theorem and_int_not_eq_zero (r m : Nat) (hr : r < 256) (hm : r &&& m = r) :
    r &&& int_not m = 0 := by
  apply Nat.eq_of_testBit_eq
  intro i
  have hbit : (r.testBit i && m.testBit i) = r.testBit i := by
    rw [← Nat.testBit_and, hm]
  simp only [int_not, Nat.testBit_and, Nat.testBit_xor, Nat.testBit_two_pow_sub_one,
    Nat.zero_testBit]
  by_cases hi : i < 32
  · cases hri : r.testBit i <;> cases hmi : m.testBit i <;> simp_all
  · have hlt : r < 2 ^ i :=
      Nat.lt_of_lt_of_le hr (by
        calc 256 = 2 ^ 8 := by norm_num
          _ ≤ 2 ^ i := Nat.pow_le_pow_right (by decide) (by omega))
    simp [Nat.testBit_eq_false_of_lt hlt]

theorem bus_cleanup_of_reasons (K : slice_config) (w : World) :
    (bus_cleanup K w).bus_data.reg_unipro_tx_fifo = [] ∧
    (bus_cleanup K w).bus_data.reg_svc_tx_fifo = [] ∧
    (reasons_within K w →
      (bus_cleanup K w).bus_data.reg_int = 0 ∧ (bus_cleanup K w).line = some false) := by
  refine ⟨?_, ?_, ?_⟩
  · simp [bus_cleanup, bus_cleanup_list_eq]
  · simp [bus_cleanup, bus_cleanup_list_eq]
  · intro hw
    have h0 := and_int_not_eq_zero _ _ hw.1 hw.2
    simp [bus_cleanup, bus_interrupt, World.line, h0]

theorem testBit_mod_256 (x i : Nat) : (x % 256).testBit i = (decide (i < 8) && x.testBit i) := by
  have h : (256 : Nat) = 2 ^ 8 := by norm_num
  rw [h, Nat.testBit_mod_two_pow]

theorem assert_within (r m M : Nat) (hr : r &&& M = r) (hm : m &&& M = m) :
    ((r ||| m) % 256) &&& M = (r ||| m) % 256 := by
  apply Nat.eq_of_testBit_eq
  intro i
  have hri : (r.testBit i && M.testBit i) = r.testBit i := by rw [← Nat.testBit_and, hr]
  have hmi : (m.testBit i && M.testBit i) = m.testBit i := by rw [← Nat.testBit_and, hm]
  simp only [Nat.testBit_and, testBit_mod_256, Nat.testBit_or]
  cases hd : decide (i < 8) <;> cases h1 : r.testBit i <;> cases h2 : m.testBit i <;>
    cases h3 : M.testBit i <;> simp_all

theorem deassert_within (r n M : Nat) (hr : r &&& M = r) :
    ((r &&& n) % 256) &&& M = (r &&& n) % 256 := by
  apply Nat.eq_of_testBit_eq
  intro i
  have hri : (r.testBit i && M.testBit i) = r.testBit i := by rw [← Nat.testBit_and, hr]
  simp only [Nat.testBit_and, testBit_mod_256]
  cases hd : decide (i < 8) <;> cases h1 : r.testBit i <;> cases h2 : n.testBit i <;>
    cases h3 : M.testBit i <;> simp_all

theorem and_or_left (a b : Nat) : a &&& (a ||| b) = a := by
  apply Nat.eq_of_testBit_eq
  intro i
  simp only [Nat.testBit_and, Nat.testBit_or]
  cases a.testBit i <;> cases b.testBit i <;> rfl

theorem and_or_right (a b : Nat) : b &&& (a ||| b) = b := by
  apply Nat.eq_of_testBit_eq
  intro i
  simp only [Nat.testBit_and, Nat.testBit_or]
  cases a.testBit i <;> cases b.testBit i <;> rfl

theorem bus_interrupt_within (K : slice_config) (w : World) (m : Nat) (a : Bool)
    (hw : reasons_within K w)
    (hm : m &&& (K.SLICE_REG_INT_SVC ||| K.SLICE_REG_INT_UNIPRO) = m) :
    reasons_within K (bus_interrupt w m a) := by
  cases a
  · exact ⟨Nat.mod_lt _ (by decide), deassert_within _ _ _ hw.2⟩
  · exact ⟨Nat.mod_lt _ (by decide), assert_within _ _ _ hw.2 hm⟩

theorem to_base_within (K : slice_config) (w w' : World) (m_ok : Bool)
    (umsg_mem : Option (Nat → Nat)) (cportid : Nat) (buf : List Nat) (len : Nat) (r : Int)
    (hw : reasons_within K w)
    (h : bus_greybus_to_base K w m_ok umsg_mem cportid buf len = some (r, w')) :
    reasons_within K w' := by
  unfold bus_greybus_to_base at h
  dsimp only at h
  repeat' split at h
  all_goals first
    | (simp only [Option.some.injEq, Prod.mk.injEq] at h
       obtain ⟨-, rfl⟩ := h
       first
         | exact hw
         | exact bus_interrupt_within K _ _ _ hw (and_or_right _ _))
    | simp at h

theorem svc_to_base_within (K : slice_config) (w w' : World) (m_ok : Bool)
    (buf_mem : Option (Nat → Nat)) (buf : List Nat) (length : Nat) (r : Int)
    (hw : reasons_within K w)
    (h : bus_svc_to_base K w m_ok buf_mem buf length = some (r, w')) :
    reasons_within K w' := by
  unfold bus_svc_to_base at h
  dsimp only at h
  repeat' split at h
  all_goals first
    | (simp only [Option.some.injEq, Prod.mk.injEq] at h
       obtain ⟨-, rfl⟩ := h
       first
         | exact hw
         | exact bus_interrupt_within K _ _ _ hw (and_or_left _ _))
    | simp at h

theorem bus_cleanup_within (K : slice_config) (w : World) (hw : reasons_within K w) :
    reasons_within K (bus_cleanup K w) :=
  bus_interrupt_within K w _ false hw (Nat.and_self _)

theorem run_op_within (K : slice_config) (w w' : World) (op : bus_op)
    (hw : reasons_within K w) (h : run_op K w op = some w') : reasons_within K w' := by
  cases op with
  | receive rx len =>
    rcases from_base_cases K _ w' len h with h1 | ⟨c, hd, -, -, -, h1⟩
    · rw [h1]; exact hw
    · rw [h1]; exact hw
  | send_data m_ok umsg_mem cportid buf len =>
    simp only [run_op, Option.map_eq_some'] at h
    obtain ⟨res, hres, rfl⟩ := h
    exact to_base_within K w res.2 m_ok umsg_mem cportid buf len res.1 hw hres
  | send_control m_ok buf_mem buf length =>
    simp only [run_op, Option.map_eq_some'] at h
    obtain ⟨res, hres, rfl⟩ := h
    exact svc_to_base_within K w res.2 m_ok buf_mem buf length res.1 hw hres
  | drain svc =>
    cases svc <;>
    · simp only [run_op, Option.some.injEq] at h
      rw [← h]
      exact hw
  | interrupt svc a =>
    cases svc
    · simp only [run_op, Option.some.injEq] at h
      rw [← h]
      exact bus_interrupt_within K w _ a hw (and_or_right _ _)
    · simp only [run_op, Option.some.injEq] at h
      rw [← h]
      exact bus_interrupt_within K w _ a hw (and_or_left _ _)
  | cleanup =>
    simp only [run_op, Option.some.injEq] at h
    rw [← h]
    exact bus_cleanup_within K w hw

theorem run_ops_within (K : slice_config) :
    ∀ (ops : List bus_op) (w w' : World), reasons_within K w →
      run_ops K w ops = some w' → reasons_within K w' := by
  intro ops
  induction ops with
  | nil =>
    intro w w' hw h
    simp only [run_ops, Option.some.injEq] at h
    rw [← h]
    exact hw
  | cons op rest ih =>
    intro w w' hw h
    rw [run_ops] at h
    split at h
    · exact absurd h (fun h2 => Option.noConfusion h2)
    · rename_i w1 h1
      exact ih w1 w' (run_op_within K w w1 op hw h1) h

theorem bus_init_within (K : slice_config) (rx_size : Nat) (i2c_ret : Int) :
    reasons_within K (bus_init K rx_size i2c_ret).2 :=
  ⟨Nat.zero_lt_succ _, Nat.zero_and _⟩

/-- C10. For every bus state that a run of the bus reaches from the state
`bus_init` leaves (any sequence of inbound frames, data-plane and control-plane
sends with any allocation outcome, drains, assertions and clearings of the two
reasons, and cleanups), in particular with two messages queued on each of the
two queues: after `bus_cleanup` both the data-plane and the control-plane queue
are empty, no reason is pending and the interrupt line is deasserted. -/
theorem bus_cleanup_empty_and_deasserted (K : slice_config) (rx_size : Nat) (i2c_ret : Int)
    (ops : List bus_op) (w : World)
    (hrun : run_ops K (bus_init K rx_size i2c_ret).2 ops = some w) :
    (bus_cleanup K w).bus_data.reg_unipro_tx_fifo = [] ∧
    (bus_cleanup K w).bus_data.reg_svc_tx_fifo = [] ∧
    (bus_cleanup K w).bus_data.reg_int = 0 ∧
    (bus_cleanup K w).line = some false := by
  have hw := run_ops_within K ops _ w (bus_init_within K rx_size i2c_ret) hrun
  obtain ⟨h1, h2, h3⟩ := bus_cleanup_of_reasons K w
  exact ⟨h1, h2, (h3 hw).1, (h3 hw).2⟩

/-- Witness for C10: a run that leaves two messages queued on each of the two
queues. -/
theorem bus_cleanup_empty_and_deasserted_witness :
    run_ops example_config (bus_init example_config 4 0).2 example_ops = some example_busy_world ∧
    example_busy_world.bus_data.reg_unipro_tx_fifo.length = 2 ∧
    example_busy_world.bus_data.reg_svc_tx_fifo.length = 2 ∧
    (bus_cleanup example_config example_busy_world).bus_data.reg_unipro_tx_fifo = [] ∧
    (bus_cleanup example_config example_busy_world).bus_data.reg_svc_tx_fifo = [] ∧
    (bus_cleanup example_config example_busy_world).bus_data.reg_int = 0 ∧
    (bus_cleanup example_config example_busy_world).line = some false :=
  ⟨by decide, by decide, by decide,
    bus_cleanup_empty_and_deasserted example_config 4 0 example_ops example_busy_world
      (by decide)⟩

/-! ## Allocation failure and the control-plane send -/

/-- C11. If either allocation of `bus_greybus_to_base` fails, the call returns
`-ENOMEM` and hands back the world it was given: neither queue gains a message,
`reg_int` is the same and `slice_host_int_set` is not called. -/
theorem bus_greybus_to_base_alloc_failure (K : slice_config) (w : World)
    (umsg_mem : Option (Nat → Nat)) (cportid : Nat) (buf : List Nat) (len : Nat) :
    bus_greybus_to_base K w false umsg_mem cportid buf len = some (-ENOMEM, w) ∧
    bus_greybus_to_base K w true none cportid buf len = some (-ENOMEM, w) := by
  constructor <;> simp [bus_greybus_to_base]

/-- C12. If either allocation of `bus_svc_to_base` fails, the call returns a
value that is not 0 and hands back the world it was given: the control-plane
queue gains no message and the control-ready reason is not asserted. -/
theorem bus_svc_to_base_alloc_failure (K : slice_config) (w : World)
    (buf_mem : Option (Nat → Nat)) (buf : List Nat) (length : Nat) :
    ∃ r : Int, r ≠ 0 ∧
      bus_svc_to_base K w false buf_mem buf length = some (r, w) ∧
      bus_svc_to_base K w true none buf length = some (r, w) := by
  refine ⟨-1, by decide, ?_, ?_⟩ <;> simp [bus_svc_to_base]

/-- C13, evaluated on the code: when the first allocation fails,
`bus_svc_to_base` returns `-1` where `bus_greybus_to_base` returns `-ENOMEM`,
and the two values differ. -/
theorem bus_svc_to_base_alloc_failure_value :
    (bus_svc_to_base example_config (example_world [] [0, 0, 0, 0, 0, 0, 0, 0] 0)
        false none [1, 2, 3] 3).map Prod.fst = some (-1) ∧
    (bus_svc_to_base example_config (example_world [] [0, 0, 0, 0, 0, 0, 0, 0] 0)
        true none [1, 2, 3] 3).map Prod.fst = some (-1) ∧
    (bus_greybus_to_base example_config (example_world [] [0, 0, 0, 0, 0, 0, 0, 0] 0)
        false none 5 [1, 2, 3] 3).map Prod.fst = some (-ENOMEM) ∧
    (-1 : Int) ≠ -ENOMEM := by
  decide

/-- C14. For every buffer `b`, when both allocations succeed
`bus_svc_to_base(b, n)` with `n` the length of `b` returns 0 and appends exactly
one message to the control-plane queue, of size `n` and with the bytes of `b`
(no header, no checksum); the data-plane queue and the remap table are
unchanged. -/
theorem bus_svc_to_base_success (K : slice_config) (w : World) (g : Nat → Nat)
    (b : List Nat) :
    ∃ w', bus_svc_to_base K w true (some g) b b.length = some (0, w') ∧
      w'.bus_data.reg_svc_tx_fifo =
        w.bus_data.reg_svc_tx_fifo ++ [{ buf := b, size := b.length }] ∧
      w'.bus_data.reg_unipro_tx_fifo = w.bus_data.reg_unipro_tx_fifo ∧
      w'.bus_data.to_base_cport = w.bus_data.to_base_cport :=
  ⟨_, bus_svc_to_base_ok K w g b, rfl, rfl, rfl⟩

/-! ## Bits of `reg_int` -/

theorem byte_testBit_high (x i : Nat) (hx : x < 256) (hi : 8 ≤ i) : x.testBit i = false := by
  apply Nat.testBit_eq_false_of_lt
  calc x < 2 ^ 8 := hx
    _ ≤ 2 ^ i := Nat.pow_le_pow_right (by decide) hi

theorem testBit_assert (r m i : Nat) (hr : r < 256) (hm : m < 256) :
    ((r ||| m) % 256).testBit i = (r.testBit i || m.testBit i) := by
  rw [testBit_mod_256, Nat.testBit_or]
  by_cases hi : i < 8
  · simp [hi]
  · simp [hi, byte_testBit_high r i hr (by omega), byte_testBit_high m i hm (by omega)]

theorem testBit_deassert (r m i : Nat) (hr : r < 256) :
    ((r &&& int_not m) % 256).testBit i = (r.testBit i && !m.testBit i) := by
  rw [testBit_mod_256, Nat.testBit_and, int_not, Nat.testBit_xor, Nat.testBit_two_pow_sub_one]
  by_cases hi : i < 8
  · have h32 : i < 32 := by omega
    simp [hi, h32]
  · simp [hi, byte_testBit_high r i hr (by omega)]

theorem assert_eq_or (r m : Nat) (hr : r < 256) (hm : m < 256) : (r ||| m) % 256 = r ||| m := by
  apply Nat.eq_of_testBit_eq
  intro i
  rw [testBit_assert r m i hr hm, Nat.testBit_or]

theorem assert_has_mask (r m : Nat) (hm : m < 256) : ((r ||| m) % 256) &&& m = m := by
  apply Nat.eq_of_testBit_eq
  intro i
  rw [Nat.testBit_and, testBit_mod_256, Nat.testBit_or]
  by_cases hi : i < 8
  · cases r.testBit i <;> cases m.testBit i <;> simp [hi]
  · simp [hi, byte_testBit_high m i hm (by omega)]

theorem assert_pos (r m : Nat) (hm : m < 256) (h0 : m ≠ 0) : 0 < (r ||| m) % 256 := by
  rcases Nat.eq_zero_or_pos ((r ||| m) % 256) with h | h
  · have := assert_has_mask r m hm
    rw [h, Nat.zero_and] at this
    exact absurd this.symm h0
  · exact h

theorem mod_256_lt (x : Nat) : x % 256 < 256 := Nat.mod_lt _ (by decide)

theorem assert_idem (r m : Nat) : (((r ||| m) % 256) ||| m) % 256 = (r ||| m) % 256 := by
  apply Nat.eq_of_testBit_eq
  intro i
  simp only [testBit_mod_256, Nat.testBit_or]
  cases decide (i < 8) <;> cases r.testBit i <;> cases m.testBit i <;> rfl

theorem deassert_idem (r n : Nat) : (((r &&& n) % 256) &&& n) % 256 = (r &&& n) % 256 := by
  apply Nat.eq_of_testBit_eq
  intro i
  simp only [testBit_mod_256, Nat.testBit_and]
  cases decide (i < 8) <;> cases r.testBit i <;> cases n.testBit i <;> rfl

theorem deassert_eq_and (r m : Nat) (hr : r < 256) :
    (r &&& int_not m) % 256 = r &&& (255 ^^^ m) := by
  apply Nat.eq_of_testBit_eq
  intro i
  have h : (255 : Nat) = 2 ^ 8 - 1 := by norm_num
  rw [testBit_deassert r m i hr, Nat.testBit_and, Nat.testBit_xor, h,
    Nat.testBit_two_pow_sub_one]
  by_cases hi : i < 8
  · simp [hi]
  · simp [hi, byte_testBit_high r i hr (by omega)]

/-- C15. After a successful send the matching reason is pending and the line is
asserted: with the reason masks being nonzero bytes, a successful
`bus_greybus_to_base` leaves every bit of `SLICE_REG_INT_UNIPRO` set in
`reg_int`, a successful `bus_svc_to_base` leaves every bit of
`SLICE_REG_INT_SVC` set, and in both cases the last value passed to
`slice_host_int_set` is `true`. -/
theorem send_asserts_reason (K : slice_config) (w : World) (g : Nat → Nat)
    (c : Nat) (p b : List Nat)
    (hc : c < w.bus_data.to_base_cport.length) (hsz : p.length + 3 < 2 ^ K.SIZE_BITS)
    (hu : K.SLICE_REG_INT_UNIPRO < 256) (hu0 : K.SLICE_REG_INT_UNIPRO ≠ 0)
    (hs : K.SLICE_REG_INT_SVC < 256) (hs0 : K.SLICE_REG_INT_SVC ≠ 0) :
    (∃ w', bus_greybus_to_base K w true (some g) c p p.length = some (0, w') ∧
      w'.bus_data.reg_int &&& K.SLICE_REG_INT_UNIPRO = K.SLICE_REG_INT_UNIPRO ∧
      w'.line = some true) ∧
    (∃ w', bus_svc_to_base K w true (some g) b b.length = some (0, w') ∧
      w'.bus_data.reg_int &&& K.SLICE_REG_INT_SVC = K.SLICE_REG_INT_SVC ∧
      w'.line = some true) := by
  constructor
  · refine ⟨_, bus_greybus_to_base_ok K w g c p p.length _ hsz (Nat.le_refl _)
      (List.getElem?_eq_getElem hc), ?_, ?_⟩
    · exact assert_has_mask _ _ hu
    · simp [bus_interrupt, World.line, assert_pos _ _ hu hu0]
  · refine ⟨_, bus_svc_to_base_ok K w g b, ?_, ?_⟩
    · exact assert_has_mask _ _ hs
    · simp [bus_interrupt, World.line, assert_pos _ _ hs hs0]

/-- Witness for C15: a data-plane and a control-plane send on an idle bus. -/
theorem send_asserts_reason_witness :
    (5 < (example_world [] [0, 0, 0, 0, 0, 7, 0, 0] 0).bus_data.to_base_cport.length ∧
      [0xAA, 0xBB].length + 3 < 2 ^ example_config.SIZE_BITS ∧
      example_config.SLICE_REG_INT_UNIPRO < 256 ∧ example_config.SLICE_REG_INT_UNIPRO ≠ 0 ∧
      example_config.SLICE_REG_INT_SVC < 256 ∧ example_config.SLICE_REG_INT_SVC ≠ 0) ∧
    (∃ w', bus_greybus_to_base example_config (example_world [] [0, 0, 0, 0, 0, 7, 0, 0] 0) true
        (some fun _ => 0) 5 [0xAA, 0xBB] [0xAA, 0xBB].length = some (0, w') ∧
      w'.bus_data.reg_int &&& example_config.SLICE_REG_INT_UNIPRO =
        example_config.SLICE_REG_INT_UNIPRO ∧
      w'.line = some true) ∧
    (∃ w', bus_svc_to_base example_config (example_world [] [0, 0, 0, 0, 0, 7, 0, 0] 0) true
        (some fun _ => 0) [10, 20] [10, 20].length = some (0, w') ∧
      w'.bus_data.reg_int &&& example_config.SLICE_REG_INT_SVC =
        example_config.SLICE_REG_INT_SVC ∧
      w'.line = some true) :=
  ⟨by decide, send_asserts_reason _ _ _ _ _ _ (by decide) (by decide) (by decide) (by decide)
    (by decide) (by decide)⟩

/-- C16. Idempotence of `bus_cleanup`: for every bus state a second call in a row
leaves the bus data (both queues empty, `reg_int`, remap table) and the line
level as the first call left them, and frees no message. -/
theorem bus_cleanup_idempotent (K : slice_config) (w : World) :
    (bus_cleanup K (bus_cleanup K w)).bus_data = (bus_cleanup K w).bus_data ∧
    (bus_cleanup K (bus_cleanup K w)).bus_data.reg_unipro_tx_fifo = [] ∧
    (bus_cleanup K (bus_cleanup K w)).bus_data.reg_svc_tx_fifo = [] ∧
    (bus_cleanup K (bus_cleanup K w)).line = (bus_cleanup K w).line ∧
    (bus_cleanup K (bus_cleanup K w)).freed = (bus_cleanup K w).freed := by
  simp [bus_cleanup, bus_cleanup_list_eq, bus_interrupt, World.line, deassert_idem]

/-- C17. For byte values `r` of `reg_int` and `m` of the mask, `bus_interrupt`
with `assert = true` yields `r | m`, with `assert = false` it yields `r & ~m`
on 8 bits (bit `i` of the result is bit `i` of `r` and not bit `i` of `m`); a
bit that is not in `m` is never changed; and a second identical call changes
neither `reg_int` nor the line level. -/
theorem bus_interrupt_bits (w : World) (m : Nat)
    (hr : w.bus_data.reg_int < 256) (hm : m < 256) :
    (bus_interrupt w m true).bus_data.reg_int = w.bus_data.reg_int ||| m ∧
    (bus_interrupt w m false).bus_data.reg_int = w.bus_data.reg_int &&& (255 ^^^ m) ∧
    (∀ i, (bus_interrupt w m false).bus_data.reg_int.testBit i =
      (w.bus_data.reg_int.testBit i && !m.testBit i)) ∧
    (∀ a i, m.testBit i = false →
      (bus_interrupt w m a).bus_data.reg_int.testBit i = w.bus_data.reg_int.testBit i) ∧
    (∀ a, (bus_interrupt (bus_interrupt w m a) m a).bus_data.reg_int =
        (bus_interrupt w m a).bus_data.reg_int ∧
      (bus_interrupt (bus_interrupt w m a) m a).line = (bus_interrupt w m a).line) := by
  refine ⟨?_, ?_, ?_, ?_, ?_⟩
  · simp [bus_interrupt, assert_eq_or _ _ hr hm]
  · simp [bus_interrupt, deassert_eq_and _ _ hr]
  · intro i
    simp [bus_interrupt, testBit_deassert _ _ _ hr]
  · intro a i hi
    cases a
    · simp [bus_interrupt, testBit_deassert _ _ _ hr, hi]
    · simp [bus_interrupt, testBit_assert _ _ _ hr hm, hi]
  · intro a
    cases a
    · simp [bus_interrupt, World.line, deassert_idem]
    · simp [bus_interrupt, World.line, assert_idem]

/-- Witness for C17: `reg_int = 3`, mask `2`. -/
theorem bus_interrupt_bits_witness :
    ((example_world [] [] 3).bus_data.reg_int < 256 ∧ 2 < 256) ∧
    (bus_interrupt (example_world [] [] 3) 2 true).bus_data.reg_int = 3 ∧
    (bus_interrupt (example_world [] [] 3) 2 false).bus_data.reg_int = 1 ∧
    (bus_interrupt (bus_interrupt (example_world [] [] 3) 2 false) 2 false).bus_data.reg_int = 1 ∧
    (bus_interrupt (bus_interrupt (example_world [] [] 3) 2 false) 2 false).line = some true :=
  ⟨by decide,
    (bus_interrupt_bits (example_world [] [] 3) 2 (by decide) (by decide)).1.trans (by decide),
    (bus_interrupt_bits (example_world [] [] 3) 2 (by decide) (by decide)).2.1.trans (by decide),
    ((bus_interrupt_bits (example_world [] [] 3) 2 (by decide) (by decide)).2.2.2.2 false).1.trans
      (by decide),
    ((bus_interrupt_bits (example_world [] [] 3) 2 (by decide) (by decide)).2.2.2.2 false).2.trans
      (by decide)⟩

/-! ## Frame conditions and index safety of the remap table -/

theorem to_base_table (K : slice_config) (w w' : World) (m_ok : Bool)
    (umsg_mem : Option (Nat → Nat)) (cportid : Nat) (buf : List Nat) (len : Nat) (r : Int)
    (h : bus_greybus_to_base K w m_ok umsg_mem cportid buf len = some (r, w')) :
    w'.bus_data.to_base_cport = w.bus_data.to_base_cport := by
  unfold bus_greybus_to_base at h
  dsimp only at h
  repeat' split at h
  all_goals first
    | (simp only [Option.some.injEq, Prod.mk.injEq] at h
       obtain ⟨-, rfl⟩ := h
       rfl)
    | simp at h

theorem svc_to_base_table (K : slice_config) (w w' : World) (m_ok : Bool)
    (buf_mem : Option (Nat → Nat)) (buf : List Nat) (length : Nat) (r : Int)
    (h : bus_svc_to_base K w m_ok buf_mem buf length = some (r, w')) :
    w'.bus_data.to_base_cport = w.bus_data.to_base_cport := by
  unfold bus_svc_to_base at h
  dsimp only at h
  repeat' split at h
  all_goals first
    | (simp only [Option.some.injEq, Prod.mk.injEq] at h
       obtain ⟨-, rfl⟩ := h
       rfl)
    | simp at h

theorem from_base_defined (K : slice_config) (w : World) (len : Nat)
    (hwf : w.bus_data.to_base_cport.length = K.SLICE_NUM_CPORTS)
    (h3 : 3 ≤ w.bus_data.reg_unipro_rx.length) (hlen : len ≤ w.bus_data.reg_unipro_rx.length) :
    ∃ w', bus_greybus_from_base K w len = some w' ∧
      w'.bus_data.to_base_cport.length = K.SLICE_NUM_CPORTS := by
  have h0 : w.bus_data.reg_unipro_rx[RX_CHECKSUM]? = some w.bus_data.reg_unipro_rx[0] :=
    List.getElem?_eq_getElem (show 0 < _ by omega)
  have h1 : w.bus_data.reg_unipro_rx[RX_HD_CPORT]? = some w.bus_data.reg_unipro_rx[1] :=
    List.getElem?_eq_getElem (show 1 < _ by omega)
  have h2 : w.bus_data.reg_unipro_rx[RX_BUNDLE_CPORT]? = some w.bus_data.reg_unipro_rx[2] :=
    List.getElem?_eq_getElem (show 2 < _ by omega)
  by_cases hpass : w.bus_data.reg_unipro_rx[0] = 0 ∨
      (len ≤ w.bus_data.reg_unipro_rx.length ∧ (w.bus_data.reg_unipro_rx.take len).sum % 256 = 0)
  · rw [from_base_stage_passed K w len _ h0 hpass]
    simp only [h1, h2]
    by_cases hr : w.bus_data.reg_unipro_rx[2] < K.SLICE_NUM_CPORTS
    · have hr2 : w.bus_data.reg_unipro_rx[2] < w.bus_data.to_base_cport.length := by omega
      simp only [hr, hr2, if_true]
      exact ⟨_, rfl, by simp [accepted, hwf]⟩
    · simp only [hr, if_false]
      exact ⟨w, rfl, hwf⟩
  · refine ⟨w, ?_, hwf⟩
    have hnz : w.bus_data.reg_unipro_rx[0] ≠ 0 := fun h => hpass (Or.inl h)
    have hsum : (w.bus_data.reg_unipro_rx.take len).sum % 256 ≠ 0 :=
      fun h => hpass (Or.inr ⟨hlen, h⟩)
    unfold bus_greybus_from_base
    simp only [h0, add_bytes_take _ _ hlen]
    simp [hnz, hsum]

theorem to_base_out_of_range (K : slice_config) (w : World) (g : Nat → Nat)
    (cportid : Nat) (buf : List Nat) (len : Nat)
    (hsz : len + 3 < 2 ^ K.SIZE_BITS)
    (hc : w.bus_data.to_base_cport.length ≤ cportid) :
    bus_greybus_to_base K w true (some g) cportid buf len = none := by
  have hsize : size_t_add K.SIZE_BITS len 3 = len + 3 := Nat.mod_eq_of_lt hsz
  have hnone : w.bus_data.to_base_cport[cportid]? = none := List.getElem?_eq_none hc
  unfold bus_greybus_to_base
  simp [hsize, hnone]

theorem size_t_sub_wrap (bits a b : Nat) (hab : a < b) (hb : b ≤ 2 ^ bits) :
    size_t_sub bits a b = 2 ^ bits + a - b := by
  unfold size_t_sub
  have h2 : ((2 : Int) ^ bits) = ((2 ^ bits : Nat) : Int) := by norm_cast
  have h3 : ((a : Int) - (b : Int)) % ((2 ^ bits : Nat) : Int) =
      ((2 ^ bits + a - b : Nat) : Int) := by
    rw [← Int.add_emod_self, Int.emod_eq_of_lt (by omega) (by omega)]
    omega
  rw [h2, h3, Int.toNat_ofNat]

/-- C18. The remap table is written only by the inbound decoder:
`bus_interrupt`, `bus_greybus_to_base` and `bus_svc_to_base` (whatever the
outcome of their allocations and whatever they return) and `bus_cleanup` leave
`to_base_cport` as it was. -/
theorem remap_table_frame (K : slice_config) (w : World) :
    (∀ (int_mask : Nat) (assert : Bool),
      (bus_interrupt w int_mask assert).bus_data.to_base_cport = w.bus_data.to_base_cport) ∧
    (∀ (m_ok : Bool) (umsg_mem : Option (Nat → Nat)) (cportid : Nat) (buf : List Nat)
        (len : Nat) (r : Int) (w' : World),
      bus_greybus_to_base K w m_ok umsg_mem cportid buf len = some (r, w') →
      w'.bus_data.to_base_cport = w.bus_data.to_base_cport) ∧
    (∀ (m_ok : Bool) (buf_mem : Option (Nat → Nat)) (buf : List Nat) (length : Nat)
        (r : Int) (w' : World),
      bus_svc_to_base K w m_ok buf_mem buf length = some (r, w') →
      w'.bus_data.to_base_cport = w.bus_data.to_base_cport) ∧
    (bus_cleanup K w).bus_data.to_base_cport = w.bus_data.to_base_cport :=
  ⟨fun _ _ => rfl,
    fun m_ok umsg_mem cportid buf len r w' h =>
      to_base_table K w w' m_ok umsg_mem cportid buf len r h,
    fun m_ok buf_mem buf length r w' h => svc_to_base_table K w w' m_ok buf_mem buf length r h,
    rfl⟩

/-- Witness for C18: a successful and a failed data-plane send and a successful
control-plane send leave the table `[0, 0, 0, 0, 0, 7, 0, 0]`. -/
theorem remap_table_frame_witness :
    (∃ r w', bus_greybus_to_base example_config (example_world [] [0, 0, 0, 0, 0, 7, 0, 0] 0)
        true (some fun _ => 0) 5 [0xAA, 0xBB] 2 = some (r, w') ∧
      w'.bus_data.to_base_cport = [0, 0, 0, 0, 0, 7, 0, 0]) ∧
    (∃ r w', bus_greybus_to_base example_config (example_world [] [0, 0, 0, 0, 0, 7, 0, 0] 0)
        true none 5 [0xAA, 0xBB] 2 = some (r, w') ∧
      w'.bus_data.to_base_cport = [0, 0, 0, 0, 0, 7, 0, 0]) ∧
    (∃ r w', bus_svc_to_base example_config (example_world [] [0, 0, 0, 0, 0, 7, 0, 0] 0)
        true (some fun _ => 0) [10, 20] 2 = some (r, w') ∧
      w'.bus_data.to_base_cport = [0, 0, 0, 0, 0, 7, 0, 0]) := by
  have h1 := bus_greybus_to_base_ok example_config (example_world [] [0, 0, 0, 0, 0, 7, 0, 0] 0)
    (fun _ => 0) 5 [0xAA, 0xBB] 2 7 (by decide) (by decide) (by decide)
  have h2 : bus_greybus_to_base example_config (example_world [] [0, 0, 0, 0, 0, 7, 0, 0] 0)
      true none 5 [0xAA, 0xBB] 2 = some (-ENOMEM, example_world [] [0, 0, 0, 0, 0, 7, 0, 0] 0) :=
    rfl
  have h3 := bus_svc_to_base_ok example_config (example_world [] [0, 0, 0, 0, 0, 7, 0, 0] 0)
    (fun _ => 0) [10, 20]
  have hframe := remap_table_frame example_config (example_world [] [0, 0, 0, 0, 0, 7, 0, 0] 0)
  exact ⟨⟨_, _, h1, hframe.2.1 _ _ _ _ _ _ _ h1⟩, ⟨_, _, h2, hframe.2.1 _ _ _ _ _ _ _ h2⟩,
    ⟨_, _, h3, hframe.2.2.1 _ _ _ _ _ _ h3⟩⟩

/-- C19. Index safety of the remap table, for a table of `SLICE_NUM_CPORTS`
entries. The decoder never indexes it out of bounds: on every receive buffer
(of at least 3 bytes, with `len` within the buffer) it returns a result and the
table keeps its size. The encoder's read `to_base_cport[cportid]` is in bounds
when `cportid < SLICE_NUM_CPORTS`: the call then returns 0. The encoder makes no
range check of its own: with `cportid` not below `SLICE_NUM_CPORTS` the read is
outside the table (the model has no result for the call). -/
theorem remap_table_index_safety (K : slice_config) (w : World)
    (hwf : w.bus_data.to_base_cport.length = K.SLICE_NUM_CPORTS) :
    (∀ len, 3 ≤ w.bus_data.reg_unipro_rx.length → len ≤ w.bus_data.reg_unipro_rx.length →
      ∃ w', bus_greybus_from_base K w len = some w' ∧
        w'.bus_data.to_base_cport.length = K.SLICE_NUM_CPORTS) ∧
    (∀ (g : Nat → Nat) (cportid : Nat) (buf : List Nat) (len : Nat),
      cportid < K.SLICE_NUM_CPORTS → len ≤ buf.length → len + 3 < 2 ^ K.SIZE_BITS →
      ∃ w', bus_greybus_to_base K w true (some g) cportid buf len = some (0, w')) ∧
    (∀ (g : Nat → Nat) (cportid : Nat) (buf : List Nat) (len : Nat),
      ¬ cportid < K.SLICE_NUM_CPORTS → len + 3 < 2 ^ K.SIZE_BITS →
      bus_greybus_to_base K w true (some g) cportid buf len = none) := by
  refine ⟨fun len h3 hlen => from_base_defined K w len hwf h3 hlen, ?_, ?_⟩
  · intro g cportid buf len hc hbuf hsz
    exact ⟨_, bus_greybus_to_base_ok K w g cportid buf len _ hsz hbuf
      (List.getElem?_eq_getElem (by omega))⟩
  · intro g cportid buf len hc hsz
    exact to_base_out_of_range K w g cportid buf len hsz (by omega)

/-- Witness for C19: with eight cports, a frame for cport 200 is decoded without
touching the table, a send on cport 5 succeeds and a send on cport 9 reads
outside the table. -/
theorem remap_table_index_safety_witness :
    (example_world [0, 7, 200, 1] [0, 0, 0, 0, 0, 7, 0, 0] 0).bus_data.to_base_cport.length =
      example_config.SLICE_NUM_CPORTS ∧
    (∃ w', bus_greybus_from_base example_config
        (example_world [0, 7, 200, 1] [0, 0, 0, 0, 0, 7, 0, 0] 0) 4 = some w' ∧
      w'.bus_data.to_base_cport.length = example_config.SLICE_NUM_CPORTS) ∧
    (∃ w', bus_greybus_to_base example_config
        (example_world [0, 7, 200, 1] [0, 0, 0, 0, 0, 7, 0, 0] 0) true (some fun _ => 0)
        5 [0xAA, 0xBB] 2 = some (0, w')) ∧
    bus_greybus_to_base example_config
        (example_world [0, 7, 200, 1] [0, 0, 0, 0, 0, 7, 0, 0] 0) true (some fun _ => 0)
        9 [0xAA, 0xBB] 2 = none :=
  ⟨by decide,
    (remap_table_index_safety example_config _ (by decide)).1 4 (by decide) (by decide),
    (remap_table_index_safety example_config _ (by decide)).2.1 _ 5 [0xAA, 0xBB] 2 (by decide)
      (by decide) (by decide),
    (remap_table_index_safety example_config _ (by decide)).2.2 _ 9 [0xAA, 0xBB] 2 (by decide)
      (by decide)⟩

/-- C20. Short-frame length arithmetic. A frame that passes the checksum stage
with its local cport in range is dispatched whatever `len` is (there is no
minimum-length check), and the length handed to the router is `len - 3` in
`size_t` arithmetic of width `SIZE_BITS`: it is `len - 3` when `3 ≤ len`, and
`2 ^ SIZE_BITS + len - 3`, that is `(len - 3) mod 2 ^ SIZE_BITS`, when
`len < 3`. -/
theorem bus_greybus_from_base_length (K : slice_config) (w : World) (len c0 c h : Nat)
    (hbits : 2 ≤ K.SIZE_BITS) (hsz : len < 2 ^ K.SIZE_BITS)
    (h0 : w.bus_data.reg_unipro_rx[RX_CHECKSUM]? = some c0)
    (hpass : c0 = 0 ∨ (len ≤ w.bus_data.reg_unipro_rx.length ∧
      (w.bus_data.reg_unipro_rx.take len).sum % 256 = 0))
    (hh : w.bus_data.reg_unipro_rx[RX_HD_CPORT]? = some h)
    (hc : w.bus_data.reg_unipro_rx[RX_BUNDLE_CPORT]? = some c)
    (hr : c < K.SLICE_NUM_CPORTS)
    (hwf : w.bus_data.to_base_cport.length = K.SLICE_NUM_CPORTS) :
    ∃ w' n, bus_greybus_from_base K w len = some w' ∧
      w'.rx_handled =
        { cport := c, data := w.bus_data.reg_unipro_rx.drop 3, len := n } :: w.rx_handled ∧
      (n : Int) = ((len : Int) - 3) % (2 : Int) ^ K.SIZE_BITS ∧
      (3 ≤ len → n = len - 3) ∧
      (len < 3 → n = 2 ^ K.SIZE_BITS + len - 3) := by
  have h4 : 3 ≤ 2 ^ K.SIZE_BITS := by
    calc 3 ≤ 2 ^ 2 := by decide
      _ ≤ 2 ^ K.SIZE_BITS := Nat.pow_le_pow_right (by decide) hbits
  refine ⟨accepted K w len c h, size_t_sub K.SIZE_BITS len 3, ?_, rfl, ?_, ?_, ?_⟩
  · rw [from_base_stage_passed K w len c0 h0 hpass]
    simp [hh, hc, hr, hwf, accepted]
  · unfold size_t_sub
    exact Int.toNat_of_nonneg (Int.emod_nonneg _ (by positivity))
  · intro h3
    exact size_t_sub_of_le _ _ _ h3 hsz
  · intro h3
    exact size_t_sub_wrap _ _ _ h3 h4

/-- Witness for C20: a frame with checksum byte 0 and `len = 2` on a 32-bit
`size_t` is dispatched with length `4294967295`. -/
theorem bus_greybus_from_base_length_witness :
    (bus_greybus_from_base example_config
        (example_world [0, 7, 5, 9] [0, 0, 0, 0, 0, 0, 0, 0] 0) 2).map (fun w => w.rx_handled)
      = some [{ cport := 5, data := [9], len := 4294967295 }] := by
  obtain ⟨w', n, hrun, hcall, -, -, hn⟩ := bus_greybus_from_base_length example_config
    (example_world [0, 7, 5, 9] [0, 0, 0, 0, 0, 0, 0, 0] 0) 2 0 5 7
    (by decide) (by decide) (by decide) (by decide) (by decide) (by decide) (by decide)
    (by decide)
  have hn2 : n = 4294967295 := hn (by decide)
  rw [hrun, Option.map_some', hcall, hn2]
  rfl

end SliceBus
